import Mathlib

/-!
Verification development for a contest-notification bot.

The embedded program has two subsystems:

* a per-chat CTFd tracking-session manager (`startTracking`, `stopTracking`,
  `pollSolves`, `sendSummary`, `restoreCtfdSessions`) backed by a JSON file of
  persisted sessions, and
* a contest-start reminder scheduler (`scheduleEventNotification`,
  `fetchAndScheduleEvents`) backed by a JSON file of scheduled events
  (`isEventScheduled`, `markEventScheduled`, `markEventNotified`,
  `cleanupFinishedEvents`).

Network fetches are modelled by an explicit environment (`CtfdEnv`), timers by
lists of armed timer handles, instants (`Date`) by integer milliseconds, and
JavaScript `Set` objects by duplicate-free insertion (`setAdd`).  The in-memory
session map, the durable store and the outbound message log are threaded as an
explicit state (`CtfdState` / `SchedState`).
-/

namespace AhmengBot

/-- Fields of a CTFd challenge used by the tracker (`CTFdChallenge` /
the nested `challenge` object of a solve). -/
structure ChallInfo where
  id : Int
  name : String
  category : String
  value : Int
  deriving DecidableEq

/-- The `user` / `team` objects nested in a CTFd solve record. -/
structure UserInfo where
  id : Int
  name : String
  deriving DecidableEq

/-- A CTFd solve record (`CTFdSolve`). -/
structure CTFdSolve where
  challenge_id : Int
  challenge : ChallInfo
  user : UserInfo
  team : UserInfo
  date : String
  deriving DecidableEq

/-- A CTFd team record (`CTFdTeam`). -/
structure CTFdTeam where
  id : Int
  name : String
  score : Int
  place : String
  deriving DecidableEq

/-- In-memory tracking session (`TrackingSession`).  The two timer handles
(`pollInterval`, `summaryTimeout`) are the identifiers returned by the timer
allocator; `none` models the JavaScript `null`. -/
structure TrackingSession where
  chatId : Int
  ctfdUrl : String
  teamName : String
  accessToken : String
  teamId : Option Int
  knownSolves : List Int
  notifiedSolves : List Int
  pollInterval : Option Nat
  summaryTimeout : Option Nat
  endTime : Int
  totalChallenges : Nat
  deriving DecidableEq

/-- Persisted session data (`PersistedSession`).  `notifiedSolves` is an
`Option` because a record written by an older revision of the program may lack
the field entirely (the restore path reads `persisted.notifiedSolves || []`). -/
structure PersistedSession where
  chatId : Int
  ctfdUrl : String
  teamName : String
  accessToken : String
  teamId : Option Int
  knownSolves : List Int
  notifiedSolves : Option (List Int)
  endTime : Int
  totalChallenges : Nat
  deriving DecidableEq

/-- The mutable world of the CTFd tracker: the in-memory `activeSessions` map
(association list keyed by chat id; keys are unique, and none of the verified
results observes iteration order), the contents of the sessions JSON file
(`store`), the set of currently armed timer handles, a fresh-handle counter,
and the log of messages sent so far as `(chatId, text)` pairs. -/
structure CtfdState where
  activeSessions : List (Int × TrackingSession)
  store : List PersistedSession
  liveTimers : List Nat
  nextTimer : Nat
  messages : List (Int × String)
  deriving DecidableEq

/-- Results of the CTFd HTTP fetch helpers, as functions of the arguments the
program passes them: `findTeam url teamName token` models `findTeamByName`,
`challenges url token` models `fetchChallenges`, `solves url teamId token`
models `fetchTeamSolves`, `rankOf url teamId token` models `fetchTeamRank`,
and `eventName url token` models `fetchEventName`. -/
structure CtfdEnv where
  findTeam : String → String → String → Option CTFdTeam
  challenges : String → String → Nat
  solves : String → Int → String → List CTFdSolve
  rankOf : String → Int → String → String × Nat
  eventName : String → String → String

/-- JavaScript `Set.add`: append the element if it is not already present. -/
def setAdd (s : List Int) (x : Int) : List Int :=
  if x ∈ s then s else s ++ [x]

/-- JavaScript `new Set(array)`: deduplicating construction. -/
def listToSet (l : List Int) : List Int :=
  l.foldl setAdd []

/-- `Map.get` on the association list of active sessions. -/
def mapGet (m : List (Int × TrackingSession)) (k : Int) : Option TrackingSession :=
  (m.find? (fun e => e.1 == k)).map (fun e => e.2)

/-- `Map.set` on the association list of active sessions (unique keys). -/
def mapSet (m : List (Int × TrackingSession)) (k : Int) (v : TrackingSession) :
    List (Int × TrackingSession) :=
  m.filter (fun e => !(e.1 == k)) ++ [(k, v)]

/-- `Map.delete` on the association list of active sessions. -/
def mapDelete (m : List (Int × TrackingSession)) (k : Int) :
    List (Int × TrackingSession) :=
  m.filter (fun e => !(e.1 == k))

/-- The characters escaped by `escapeMarkdownV2`
(the regex class `[_*[\]()~`>#+\-=|{}.!]`). -/
def escSet : List Char :=
  ("_*[]()~\x60>#+-=|\x7b\x7d.!").data

/-- Character-level body of `escapeMarkdownV2`: each character of the escape
set is replaced by a backslash followed by itself (`"\\$&"`); every other
character is kept as is. -/
def escChars : List Char → List Char
  | [] => []
  | c :: cs => if c ∈ escSet then '\\' :: c :: escChars cs else c :: escChars cs

/-- `escapeMarkdownV2` from the source: escape all MarkdownV2 metacharacters. -/
def escapeMarkdownV2 (s : String) : String :=
  ⟨escChars s.data⟩

/-- `cleanRank`: strip a trailing ordinal suffix (`st`, `nd`, `rd`, `th`,
case-insensitively) from a rank string. -/
def cleanRank (rank : String) : String :=
  let n := rank.length
  if 2 ≤ n ∧ (rank.drop (n - 2)).toLower ∈ (["st", "nd", "rd", "th"] : List String) then
    rank.take (n - 2)
  else rank

/-- `formatSolveNotification`: the solve-notification message template. -/
def formatSolveNotification (eventName teamName challengeName category : String)
    (points : Int) (rank : String) (totalTeams : Nat) (solverName : String)
    (currentPoints : Int) : String :=
  "*CHALLENGE SOLVED*\n\nEvent name: *" ++ escapeMarkdownV2 eventName ++
    "*\nTeam name: *" ++ escapeMarkdownV2 teamName ++
    "*\nChall name: *" ++ escapeMarkdownV2 challengeName ++
    "*\nCategory: *" ++ escapeMarkdownV2 category ++
    "*\nPoints: *" ++ toString points ++
    "*\nCurrent rank: *" ++ cleanRank rank ++ "/" ++ toString totalTeams ++
    "*\nCurrent points: *" ++ toString currentPoints ++
    "*\n\n*SOLVED BY " ++ escapeMarkdownV2 solverName ++ "*"

/-- `formatSummary`: the end-of-CTF summary message template. -/
def formatSummary (eventName teamName : String) (solveCount totalChallenges : Nat)
    (totalPoints : Int) (rank : String) (totalTeams : Nat) : String :=
  "*CTF SUMMARY*\n\nEvent name: *" ++ escapeMarkdownV2 eventName ++
    "*\nTeam name: *" ++ escapeMarkdownV2 teamName ++
    "*\nTotal solves: *" ++ toString solveCount ++ "/" ++ toString totalChallenges ++
    "*\nTotal points: *" ++ toString totalPoints ++
    "*\nCurrent rank: *" ++ cleanRank rank ++ "/" ++ toString totalTeams ++ "*"

/-- `PersistedSession` produced for one map entry by `saveActiveSessions`. -/
def toPersisted (chatId : Int) (s : TrackingSession) : PersistedSession :=
  { chatId := chatId
    ctfdUrl := s.ctfdUrl
    teamName := s.teamName
    accessToken := s.accessToken
    teamId := s.teamId
    knownSolves := s.knownSolves
    notifiedSolves := some s.notifiedSolves
    endTime := s.endTime
    totalChallenges := s.totalChallenges }

/-- `saveActiveSessions`: rewrite the sessions file from the active map. -/
def saveActive (st : CtfdState) : CtfdState :=
  { st with store := st.activeSessions.map (fun e => toPersisted e.1 e.2) }

/-- `stopTracking`: cancel both timers of the session for `chatId` (if any),
drop it from the active map and rewrite the sessions file. -/
def stopTracking (st : CtfdState) (chatId : Int) : CtfdState :=
  match mapGet st.activeSessions chatId with
  | none => st
  | some session =>
    let timers := st.liveTimers.filter
      (fun t => !(session.pollInterval == some t || session.summaryTimeout == some t))
    saveActive { st with
      liveTimers := timers
      activeSessions := mapDelete st.activeSessions chatId }

/-- `sendSummary`: fetch final solves, rank and event name, send the summary
message, then tear the session down via `stopTracking`.  A missing session or
a `null` team id makes it a no-op. -/
def sendSummary (env : CtfdEnv) (st : CtfdState) (chatId : Int) : CtfdState :=
  match mapGet st.activeSessions chatId with
  | none => st
  | some session =>
    match session.teamId with
    | none => st
    | some tid =>
      let solves := env.solves session.ctfdUrl tid session.accessToken
      let rt := env.rankOf session.ctfdUrl tid session.accessToken
      let evName := env.eventName session.ctfdUrl session.accessToken
      let totalPoints := solves.foldl (fun sum s => sum + s.challenge.value) 0
      let msg := formatSummary evName session.teamName solves.length
        session.totalChallenges totalPoints rt.1 rt.2
      stopTracking { st with messages := st.messages ++ [(chatId, msg)] } chatId

/-- One iteration of the `for (const solve of solves)` loop of `pollSolves`.
The accumulator carries the state together with the session object the loop
mutates in place; every mutation is mirrored into the active map, matching the
aliasing of the JavaScript object. -/
def pollStep (env : CtfdEnv) (chatId tid : Int) (allSolves : List CTFdSolve)
    (acc : CtfdState × TrackingSession) (solve : CTFdSolve) :
    CtfdState × TrackingSession :=
  let st := acc.1
  let session := acc.2
  if solve.challenge_id ∈ session.knownSolves then acc
  else
    let session1 := { session with knownSolves := setAdd session.knownSolves solve.challenge_id }
    let st1 := { st with activeSessions := mapSet st.activeSessions chatId session1 }
    if solve.challenge_id ∈ session1.notifiedSolves then (st1, session1)
    else
      let rt := env.rankOf session1.ctfdUrl tid session1.accessToken
      let evName := env.eventName session1.ctfdUrl session1.accessToken
      let currentPoints := allSolves.foldl (fun sum s => sum + s.challenge.value) 0
      let msg := formatSolveNotification evName session1.teamName
        solve.challenge.name solve.challenge.category solve.challenge.value
        rt.1 rt.2 solve.user.name currentPoints
      let st2 := { st1 with messages := st1.messages ++ [(chatId, msg)] }
      let session2 := { session1 with
        notifiedSolves := setAdd session1.notifiedSolves solve.challenge_id }
      let st3 := saveActive { st2 with activeSessions := mapSet st2.activeSessions chatId session2 }
      (st3, session2)

/-- `pollSolves`: one poll cycle for `chatId`.  No-op when the session is
absent or its team id is `null`; otherwise fold the solve-processing loop over
the fetched solve list. -/
def pollSolves (env : CtfdEnv) (st : CtfdState) (chatId : Int) : CtfdState :=
  match mapGet st.activeSessions chatId with
  | none => st
  | some session =>
    match session.teamId with
    | none => st
    | some tid =>
      let solves := env.solves session.ctfdUrl tid session.accessToken
      (solves.foldl (pollStep env chatId tid solves) (st, session)).1

/-- `startTracking`: stop any existing session for the chat, validate the end
time, resolve the team, seed the solve sets, persist the session, then arm the
poll interval and either the summary timeout or (when less than the two-minute
lead time remains) an immediate synchronous summary. -/
def startTracking (env : CtfdEnv) (st : CtfdState) (chatId : Int)
    (ctfdUrl teamName accessToken : String) (endTime now : Int) :
    String × CtfdState :=
  let st0 := stopTracking st chatId
  if endTime ≤ now then ("Error: CTF has already ended", st0)
  else
    match env.findTeam ctfdUrl teamName accessToken with
    | none => ("Error: Team \"" ++ teamName ++ "\" not found", st0)
    | some team =>
      let totalChallenges := env.challenges ctfdUrl accessToken
      let initialSolves := env.solves ctfdUrl team.id accessToken
      let knownSolves := listToSet (initialSolves.map (fun s => s.challenge_id))
      let session : TrackingSession :=
        { chatId := chatId
          ctfdUrl := ctfdUrl
          teamName := teamName
          accessToken := accessToken
          teamId := some team.id
          knownSolves := knownSolves
          notifiedSolves := []
          pollInterval := none
          summaryTimeout := none
          endTime := endTime
          totalChallenges := totalChallenges }
      let st1 := saveActive { st0 with activeSessions := mapSet st0.activeSessions chatId session }
      let pollId := st1.nextTimer
      let session1 := { session with pollInterval := some pollId }
      let st2 := { st1 with
        activeSessions := mapSet st1.activeSessions chatId session1
        liveTimers := st1.liveTimers ++ [pollId]
        nextTimer := st1.nextTimer + 1 }
      let timeUntilSummary := endTime - now - 2 * 60 * 1000
      if 0 < timeUntilSummary then
        let sumId := st2.nextTimer
        let session2 := { session1 with summaryTimeout := some sumId }
        let st3 := { st2 with
          activeSessions := mapSet st2.activeSessions chatId session2
          liveTimers := st2.liveTimers ++ [sumId]
          nextTimer := st2.nextTimer + 1 }
        ("Started tracking team \"" ++ teamName ++
          "\". Will send summary 2 minutes before CTF ends.", st3)
      else
        ("CTF ends in less than 2 minutes. Summary sent.", sendSummary env st2 chatId)

/-- The in-memory session reconstructed from a persisted record by
`restoreCtfdSessions` (a missing `notifiedSolves` field becomes the empty
set via `persisted.notifiedSolves || []`). -/
def restoredSession (p : PersistedSession) : TrackingSession :=
  { chatId := p.chatId
    ctfdUrl := p.ctfdUrl
    teamName := p.teamName
    accessToken := p.accessToken
    teamId := p.teamId
    knownSolves := listToSet p.knownSolves
    notifiedSolves := listToSet (p.notifiedSolves.getD [])
    pollInterval := none
    summaryTimeout := none
    endTime := p.endTime
    totalChallenges := p.totalChallenges }

/-- One iteration of the restore loop: skip an expired record, otherwise put
the reconstructed session into the active map, re-arm the poll interval, and
either arm the summary timeout or send the summary immediately. -/
def restoreOne (env : CtfdEnv) (now : Int) (st : CtfdState) (p : PersistedSession) :
    CtfdState :=
  if p.endTime ≤ now then st
  else
    let session := restoredSession p
    let st1 := { st with activeSessions := mapSet st.activeSessions p.chatId session }
    let pollId := st1.nextTimer
    let session1 := { session with pollInterval := some pollId }
    let st2 := { st1 with
      activeSessions := mapSet st1.activeSessions p.chatId session1
      liveTimers := st1.liveTimers ++ [pollId]
      nextTimer := st1.nextTimer + 1 }
    if 0 < p.endTime - now - 2 * 60 * 1000 then
      let sumId := st2.nextTimer
      let session2 := { session1 with summaryTimeout := some sumId }
      { st2 with
        activeSessions := mapSet st2.activeSessions p.chatId session2
        liveTimers := st2.liveTimers ++ [sumId]
        nextTimer := st2.nextTimer + 1 }
    else
      sendSummary env st2 p.chatId

/-- `restoreCtfdSessions`: iterate the restore loop over the persisted
sessions loaded from the file (`st.store`). -/
def restoreCtfdSessions (env : CtfdEnv) (now : Int) (st : CtfdState) : CtfdState :=
  st.store.foldl (restoreOne env now) st

/-- Fields of a CTFTime event used by the scheduler and the store
(`CTFTimeEvent`; the purely presentational fields — organizers, logo,
duration, weight, participants, etc. — are not consumed by any verified
operation and are omitted). -/
structure CTFTimeEvent where
  id : Int
  title : String
  url : String
  start : Int
  finish : Int
  format : String
  onsite : Bool
  deriving DecidableEq

/-- A record of the events JSON file (`ScheduledEvent extends CTFTimeEvent`). -/
structure ScheduledEvent extends CTFTimeEvent where
  scheduled : Bool
  notified : Bool
  deriving DecidableEq

/-- The mutable world of the reminder scheduler: the events JSON file, the
armed one-shot reminder timers (by event id, one entry per arming), the log of
attempted reminder sends (by event id), and the count of failed deliveries
that were caught and logged. -/
structure SchedState where
  events : List ScheduledEvent
  timers : List Int
  sends : List Int
  sendFailures : Nat
  deriving DecidableEq

/-- `isEventScheduled` from `db.ts`: is there a record for this event id with
`scheduled` set? -/
def isEventScheduled (events : List ScheduledEvent) (eventId : Int) : Bool :=
  events.any (fun e => e.id == eventId && e.scheduled)

/-- `markEventScheduled` from `db.ts`: overwrite the first record with the
event's id (keeping its `notified` flag) or append a fresh
`{scheduled := true, notified := false}` record. -/
def markEventScheduled (events : List ScheduledEvent) (event : CTFTimeEvent) :
    List ScheduledEvent :=
  match events.findIdx? (fun e => e.id == event.id) with
  | some i =>
    match events[i]? with
    | some existing => events.set i ⟨event, true, existing.notified⟩
    | none => events ++ [⟨event, true, false⟩]
  | none => events ++ [⟨event, true, false⟩]

/-- `markEventNotified` from `db.ts`: set `notified` on the first record with
the given event id; no-op when no record matches. -/
def markEventNotified (events : List ScheduledEvent) (eventId : Int) :
    List ScheduledEvent :=
  match events.findIdx? (fun e => e.id == eventId) with
  | some i =>
    match events[i]? with
    | some e => events.set i ⟨e.toCTFTimeEvent, e.scheduled, true⟩
    | none => events
  | none => events

/-- `cleanupFinishedEvents` from `db.ts`: drop every record whose finish time
is not in the future. -/
def cleanupFinishedEvents (events : List ScheduledEvent) (now : Int) :
    List ScheduledEvent :=
  events.filter (fun e => now < e.finish)

/-- `scheduleEventNotification`: skip when a scheduled record already exists
and `force` is off; skip silently when the event already started; otherwise
arm the one-shot reminder timer and persist the record as scheduled. -/
def scheduleEventNotification (st : SchedState) (event : CTFTimeEvent)
    (force : Bool) (now : Int) : SchedState :=
  if !force && isEventScheduled st.events event.id then st
  else if event.start - now ≤ 0 then st
  else
    { st with
      timers := st.timers ++ [event.id]
      events := markEventScheduled st.events event }

/-- The body of the `setTimeout` callback armed by
`scheduleEventNotification`: attempt exactly one delivery of the
starting-now message (`sendOk` says whether the delivery succeeded; a failure
is only counted/logged), then mark the reminder notified. -/
def fireReminder (st : SchedState) (event : CTFTimeEvent) (sendOk : Bool) :
    SchedState :=
  let st1 := { st with
    sends := st.sends ++ [event.id]
    sendFailures := if sendOk then st.sendFailures else st.sendFailures + 1 }
  { st1 with events := markEventNotified st1.events event.id }

/-- `fetchAndScheduleEvents` (the spec's `ingestFetchedEvents`): purge
finished records, then schedule every fetched event that is Jeopardy-format
and not onsite. -/
def fetchAndScheduleEvents (st : SchedState) (fetched : List CTFTimeEvent)
    (now : Int) : SchedState :=
  let st1 := { st with events := cleanupFinishedEvents st.events now }
  (fetched.filter (fun e => e.format == "Jeopardy" && e.onsite == false)).foldl
    (fun s e => scheduleEventNotification s e false now) st1

/-- Spec-side reading of claim C8's "preceded by exactly one backslash": an
escape-set character may not be at position 0, the character right before it
must be a backslash, and the character before that one (if any) must not also
be a backslash (a run of exactly one). -/
def precededByExactlyOne (l : List Char) : Bool :=
  (List.range l.length).all fun i =>
    match l[i]? with
    | none => true
    | some c =>
      if c ∈ escSet then
        decide (1 ≤ i) && l[i - 1]? == some '\\' &&
          (i == 1 || !(l[i - 2]? == some '\\'))
      else true

/-! ### Helper lemmas about the set, map and store primitives -/

theorem mem_setAdd (s : List Int) (x a : Int) : a ∈ setAdd s x ↔ a = x ∨ a ∈ s := by
  unfold setAdd
  by_cases h : x ∈ s
  · simp only [if_pos h]
    constructor
    · exact fun ha => Or.inr ha
    · rintro (rfl | ha)
      · exact h
      · exact ha
  · simp [if_neg h, or_comm]

theorem mem_listToSet_aux (l acc : List Int) (x : Int) :
    x ∈ l.foldl setAdd acc ↔ x ∈ acc ∨ x ∈ l := by
  induction l generalizing acc with
  | nil => simp
  | cons a l ih =>
    simp only [List.foldl_cons, ih, mem_setAdd, List.mem_cons]
    tauto

theorem mem_listToSet (l : List Int) (x : Int) : x ∈ listToSet l ↔ x ∈ l := by
  simp [listToSet, mem_listToSet_aux]

theorem listToSet_mono {l m : List Int} (h : l ⊆ m) : listToSet l ⊆ listToSet m := by
  intro x hx
  rw [mem_listToSet] at hx ⊢
  exact h hx

theorem setAdd_subset_setAdd {s t : List Int} (x : Int) (h : s ⊆ t) :
    setAdd s x ⊆ setAdd t x := by
  intro a ha
  rw [mem_setAdd] at ha ⊢
  exact ha.imp id (fun h' => h h')

theorem subset_setAdd (s : List Int) (x : Int) : s ⊆ setAdd s x := by
  intro a ha
  rw [mem_setAdd]
  exact Or.inr ha

theorem find?_append_none {α : Type} (p : α → Bool) (l₁ l₂ : List α)
    (h : ∀ x ∈ l₁, ¬ p x) : List.find? p (l₁ ++ l₂) = List.find? p l₂ := by
  induction l₁ with
  | nil => simp
  | cons a l ih =>
    have ha : p a = false := by simpa using h a (by simp)
    rw [List.cons_append, List.find?_cons_of_neg _ (by simp [ha]),
      ih (fun x hx => h x (by simp [hx]))]

theorem find?_filter_sub {α : Type} (p q : α → Bool) (l : List α)
    (h : ∀ x, p x → q x) : List.find? p (l.filter q) = List.find? p l := by
  induction l with
  | nil => simp
  | cons a l ih =>
    by_cases hq : q a
    · by_cases hp : p a
      · rw [List.filter_cons_of_pos hq, List.find?_cons_of_pos _ hp,
          List.find?_cons_of_pos _ hp]
      · rw [List.filter_cons_of_pos hq,
          List.find?_cons_of_neg _ (by simpa using hp),
          List.find?_cons_of_neg _ (by simpa using hp), ih]
    · have hp : p a = false := by
        by_contra hc
        exact hq (h a (by simpa using hc))
      rw [List.filter_cons_of_neg (by simpa using hq),
        List.find?_cons_of_neg _ (by simp [hp]), ih]

theorem mapGet_mapSet (m : List (Int × TrackingSession)) (k k' : Int) (v : TrackingSession) :
    mapGet (mapSet m k v) k' = if k' = k then some v else mapGet m k' := by
  by_cases h : k' = k
  · subst h
    unfold mapGet mapSet
    rw [find?_append_none _ _ _ (fun x hx => by
      have := List.of_mem_filter hx
      simpa using this)]
    simp
  · unfold mapGet mapSet
    rw [if_neg h]
    have h1 : List.find? (fun e => e.1 == k') (List.filter (fun e => !(e.1 == k)) m ++ [(k, v)]) =
        List.find? (fun e => e.1 == k') (List.filter (fun e => !(e.1 == k)) m) := by
      induction (List.filter (fun e => !(e.1 == k)) m) with
      | nil =>
        have : (k == k') = false := by simpa using (fun hc => h hc.symm)
        simp [List.find?, this]
      | cons a l ih =>
        by_cases hp : a.1 = k'
        · rw [List.cons_append, List.find?_cons_of_pos _ (by simpa using hp),
            List.find?_cons_of_pos _ (by simpa using hp)]
        · rw [List.cons_append, List.find?_cons_of_neg _ (by simpa using hp),
            List.find?_cons_of_neg _ (by simpa using hp), ih]
    rw [h1, find?_filter_sub]
    intro x hx
    simp at hx ⊢
    intro hk
    rw [hk] at hx
    exact absurd hx.symm h

theorem mapGet_mapSet_self (m : List (Int × TrackingSession)) (k : Int) (v : TrackingSession) :
    mapGet (mapSet m k v) k = some v := by
  simp [mapGet_mapSet]

theorem mapGet_mapSet_ne (m : List (Int × TrackingSession)) {k k' : Int} (v : TrackingSession)
    (h : k' ≠ k) : mapGet (mapSet m k v) k' = mapGet m k' := by
  simp [mapGet_mapSet, h]

theorem mapGet_mapDelete (m : List (Int × TrackingSession)) (k k' : Int) :
    mapGet (mapDelete m k) k' = if k' = k then none else mapGet m k' := by
  by_cases h : k' = k
  · subst h
    unfold mapGet mapDelete
    rw [List.find?_eq_none.2 (fun x hx => by
      have := List.of_mem_filter hx
      simpa using this)]
    simp
  · unfold mapGet mapDelete
    rw [if_neg h, find?_filter_sub]
    intro x hx
    simp at hx ⊢
    intro hk
    rw [hk] at hx
    exact absurd hx.symm h

theorem mapGet_eq_some_of_mapSet {m : List (Int × TrackingSession)} {k k' : Int}
    {v s : TrackingSession} (h : mapGet (mapSet m k v) k' = some s) :
    (k' = k ∧ s = v) ∨ (k' ≠ k ∧ mapGet m k' = some s) := by
  rw [mapGet_mapSet] at h
  by_cases hk : k' = k
  · rw [if_pos hk] at h
    exact Or.inl ⟨hk, (Option.some.injEq _ _ ▸ h).symm⟩
  · rw [if_neg hk] at h
    exact Or.inr ⟨hk, h⟩

theorem filter_mapSet_self (m : List (Int × TrackingSession)) (k : Int) (v : TrackingSession) :
    (mapSet m k v).filter (fun e => e.1 == k) = [(k, v)] := by
  unfold mapSet
  rw [List.filter_append]
  have h1 : (List.filter (fun e => !(e.1 == k)) m).filter (fun e => e.1 == k) = [] := by
    rw [List.filter_eq_nil_iff]
    intro x hx
    have := List.of_mem_filter hx
    simpa using this
  rw [h1]
  simp

/-! ### The notified-subset-of-known invariant (claims C1 and C10) -/

/-- The per-session invariant on an active-session map: every live session's
`notifiedSolves` is a subset of its `knownSolves`. -/
def sessionInvOn (m : List (Int × TrackingSession)) : Prop :=
  ∀ k s, mapGet m k = some s → s.notifiedSolves ⊆ s.knownSolves

/-- The invariant `notifiedSolveIds ⊆ knownSolveIds` for every session live
in a state. -/
def sessionInv (st : CtfdState) : Prop :=
  sessionInvOn st.activeSessions

/-- The corresponding invariant on one persisted record (an absent
`notifiedSolves` field reads as the empty list). -/
def persistedOk (p : PersistedSession) : Prop :=
  (p.notifiedSolves.getD []) ⊆ p.knownSolves

theorem sessionInvOn_mapSet {m : List (Int × TrackingSession)} {k : Int}
    {v : TrackingSession} (hm : sessionInvOn m)
    (hv : v.notifiedSolves ⊆ v.knownSolves) : sessionInvOn (mapSet m k v) := by
  intro k' s h
  rcases mapGet_eq_some_of_mapSet h with ⟨_, rfl⟩ | ⟨_, h'⟩
  · exact hv
  · exact hm _ _ h'

theorem sessionInvOn_mapDelete {m : List (Int × TrackingSession)} {k : Int}
    (hm : sessionInvOn m) : sessionInvOn (mapDelete m k) := by
  intro k' s h
  rw [mapGet_mapDelete] at h
  by_cases hk : k' = k
  · rw [if_pos hk] at h
    exact absurd h (by simp)
  · rw [if_neg hk] at h
    exact hm _ _ h

theorem stopTracking_inv {st : CtfdState} (k : Int) (h : sessionInv st) :
    sessionInv (stopTracking st k) := by
  unfold stopTracking
  cases hg : mapGet st.activeSessions k with
  | none => exact h
  | some s => exact sessionInvOn_mapDelete h

theorem sendSummary_inv (env : CtfdEnv) {st : CtfdState} (k : Int)
    (h : sessionInv st) : sessionInv (sendSummary env st k) := by
  unfold sendSummary
  split
  · exact h
  · split
    · exact h
    · exact stopTracking_inv k h

/-- Invariant carried through the solve-processing loop: the state invariant
together with the invariant on the session object the loop mutates. -/
def pollInv (acc : CtfdState × TrackingSession) : Prop :=
  sessionInvOn acc.1.activeSessions ∧ acc.2.notifiedSolves ⊆ acc.2.knownSolves

theorem pollStep_inv (env : CtfdEnv) (chatId tid : Int) (allSolves : List CTFdSolve)
    {acc : CtfdState × TrackingSession} (h : pollInv acc) (solve : CTFdSolve) :
    pollInv (pollStep env chatId tid allSolves acc solve) := by
  obtain ⟨h1, h2⟩ := h
  unfold pollStep
  by_cases hk : solve.challenge_id ∈ acc.2.knownSolves
  · rw [if_pos hk]
    exact ⟨h1, h2⟩
  · rw [if_neg hk]
    have hsub : acc.2.notifiedSolves ⊆ setAdd acc.2.knownSolves solve.challenge_id :=
      fun x hx => subset_setAdd _ _ (h2 hx)
    by_cases hn : solve.challenge_id ∈ acc.2.notifiedSolves
    · rw [if_pos hn]
      exact ⟨sessionInvOn_mapSet h1 hsub, hsub⟩
    · rw [if_neg hn]
      refine ⟨?_, ?_⟩
      · exact sessionInvOn_mapSet (sessionInvOn_mapSet h1 hsub)
          (setAdd_subset_setAdd _ h2)
      · exact setAdd_subset_setAdd _ h2

theorem foldl_pollStep_inv (env : CtfdEnv) (chatId tid : Int)
    (allSolves l : List CTFdSolve) {acc : CtfdState × TrackingSession}
    (h : pollInv acc) :
    pollInv (l.foldl (pollStep env chatId tid allSolves) acc) := by
  induction l generalizing acc with
  | nil => exact h
  | cons s l ih => exact ih (pollStep_inv env chatId tid allSolves h s)

theorem pollSolves_inv (env : CtfdEnv) {st : CtfdState} (k : Int)
    (h : sessionInv st) : sessionInv (pollSolves env st k) := by
  unfold pollSolves
  split
  · exact h
  · rename_i session hg
    split
    · exact h
    · rename_i tid ht
      exact (foldl_pollStep_inv env k tid _ _
        (⟨h, h _ _ hg⟩ : pollInv (st, session))).1

theorem startTracking_inv (env : CtfdEnv) {st : CtfdState} (k : Int)
    (url name tok : String) (endTime now : Int) (h : sessionInv st) :
    sessionInv (startTracking env st k url name tok endTime now).2 := by
  unfold startTracking
  have h0 : sessionInv (stopTracking st k) := stopTracking_inv k h
  split
  · exact h0
  · split
    · exact h0
    · dsimp only
      split
      · refine sessionInvOn_mapSet (sessionInvOn_mapSet (sessionInvOn_mapSet h0 ?_) ?_) ?_ <;>
          exact List.nil_subset _
      · refine sendSummary_inv env k ?_
        exact sessionInvOn_mapSet (sessionInvOn_mapSet h0 (List.nil_subset _)) (List.nil_subset _)

theorem restoredSession_inv {p : PersistedSession} (hp : persistedOk p) :
    (restoredSession p).notifiedSolves ⊆ (restoredSession p).knownSolves := by
  unfold restoredSession
  exact listToSet_mono hp

theorem restoreOne_inv (env : CtfdEnv) (now : Int) {st : CtfdState}
    {p : PersistedSession} (h : sessionInv st) (hp : persistedOk p) :
    sessionInv (restoreOne env now st p) := by
  unfold restoreOne
  split
  · exact h
  · dsimp only
    split
    · refine sessionInvOn_mapSet (sessionInvOn_mapSet (sessionInvOn_mapSet h ?_) ?_) ?_ <;>
        exact restoredSession_inv hp
    · refine sendSummary_inv env _ ?_
      exact sessionInvOn_mapSet (sessionInvOn_mapSet h (restoredSession_inv hp))
        (restoredSession_inv hp)

theorem foldl_restoreOne_inv (env : CtfdEnv) (now : Int) (l : List PersistedSession)
    {st : CtfdState} (h : sessionInv st) (hl : ∀ p ∈ l, persistedOk p) :
    sessionInv (l.foldl (restoreOne env now) st) := by
  induction l generalizing st with
  | nil => exact h
  | cons p l ih =>
    exact ih (restoreOne_inv env now h (hl p (by simp)))
      (fun q hq => hl q (by simp [hq]))

theorem restoreCtfdSessions_inv (env : CtfdEnv) (now : Int) {st : CtfdState}
    (h : sessionInv st) (hs : ∀ p ∈ st.store, persistedOk p) :
    sessionInv (restoreCtfdSessions env now st) :=
  foldl_restoreOne_inv env now st.store h hs

/-! ### Helper lemmas about the reminder store -/

theorem findIdx?_some_get {α : Type} (p : α → Bool) :
    ∀ (l : List α) (s i : Nat), List.findIdx? p l s = some i →
      s ≤ i ∧ ∃ x, l[i - s]? = some x ∧ p x := by
  intro l
  induction l with
  | nil => intro s i h; simp [List.findIdx?] at h
  | cons a l ih =>
    intro s i h
    rw [List.findIdx?_cons] at h
    by_cases hp : p a
    · rw [if_pos hp] at h
      obtain rfl : s = i := by simpa using h
      refine ⟨le_refl _, a, ?_, hp⟩
      simp
    · rw [if_neg hp] at h
      obtain ⟨hle, x, hx, hpx⟩ := ih (s + 1) i h
      refine ⟨by omega, x, ?_, hpx⟩
      have h1 : i - s = (i - (s + 1)) + 1 := by omega
      rw [h1]
      simpa using hx

theorem findIdx?_zero_get {α : Type} (p : α → Bool) (l : List α) (i : Nat)
    (h : List.findIdx? p l = some i) : ∃ x, l[i]? = some x ∧ p x := by
  have := (findIdx?_some_get p l 0 i h).2
  simpa using this

theorem isEventScheduled_eq_false {events : List ScheduledEvent} {eventId : Int}
    (h : ∀ e ∈ events, e.id ≠ eventId) : isEventScheduled events eventId = false := by
  unfold isEventScheduled
  rw [List.any_eq_false]
  intro e he
  simp [h e he]

theorem markEventScheduled_of_absent {events : List ScheduledEvent}
    {event : CTFTimeEvent} (h : ∀ e ∈ events, e.id ≠ event.id) :
    markEventScheduled events event = events ++ [⟨event, true, false⟩] := by
  unfold markEventScheduled
  have hidx : List.findIdx? (fun e => e.id == event.id) events = none := by
    rw [List.findIdx?_eq_none_iff]
    intro e he
    simp [h e he]
  rw [hidx]

theorem cleanup_preserves_absent {events : List ScheduledEvent} {eventId : Int}
    (now : Int) (h : ∀ e ∈ events, e.id ≠ eventId) :
    ∀ e ∈ cleanupFinishedEvents events now, e.id ≠ eventId :=
  fun e he => h e (List.mem_of_mem_filter he)

/-! ### Claim theorems for the reminder scheduler (C5, C7, C9) -/

/-- Claim C5: ingesting the same fetched contest twice (future start, record
not yet present, Jeopardy and not onsite, finish still in the future at the
second ingest) arms exactly one reminder timer for the event and leaves
exactly one persisted record for its id, scheduled and not yet notified:
`scheduleEventNotification` is a no-op on the second ingest because a
`scheduled=true` record already exists and `force` is off. -/
theorem reminder_scheduling_idempotent (st : SchedState) (event : CTFTimeEvent)
    (now₁ now₂ : Int)
    (hfmt : event.format = "Jeopardy") (hons : event.onsite = false)
    (habsent : ∀ e ∈ st.events, e.id ≠ event.id)
    (htimer : event.id ∉ st.timers)
    (h1 : now₁ < event.start) (h2 : now₂ < event.start) (hfin : now₂ < event.finish) :
    (fetchAndScheduleEvents (fetchAndScheduleEvents st [event] now₁) [event] now₂).timers.count
        event.id = 1 ∧
    ((fetchAndScheduleEvents (fetchAndScheduleEvents st [event] now₁) [event]
        now₂).events.filter (fun e => e.id == event.id)).length = 1 ∧
    ∀ e ∈ (fetchAndScheduleEvents (fetchAndScheduleEvents st [event] now₁) [event]
        now₂).events, e.id = event.id → e.scheduled = true ∧ e.notified = false := by
  have hpass : List.filter (fun e => e.format == "Jeopardy" && e.onsite == false)
      [event] = [event] := by
    simp [hfmt, hons]
  -- first ingest
  have habs1 : ∀ e ∈ cleanupFinishedEvents st.events now₁, e.id ≠ event.id :=
    cleanup_preserves_absent now₁ habsent
  have hsched1 : isEventScheduled (cleanupFinishedEvents st.events now₁) event.id = false :=
    isEventScheduled_eq_false habs1
  have hstep1 : fetchAndScheduleEvents st [event] now₁ =
      { st with
        events := cleanupFinishedEvents st.events now₁ ++ [⟨event, true, false⟩]
        timers := st.timers ++ [event.id] } := by
    unfold fetchAndScheduleEvents
    rw [hpass]
    simp only [List.foldl_cons, List.foldl_nil]
    unfold scheduleEventNotification
    rw [hsched1]
    simp only [Bool.and_false, Bool.false_and, Bool.not_false, Bool.and_true]
    rw [if_neg (by simp), if_neg (by omega)]
    rw [markEventScheduled_of_absent habs1]
  -- second ingest
  set rec1 : ScheduledEvent := ⟨event, true, false⟩ with hrec
  have hclean2 : cleanupFinishedEvents
      (cleanupFinishedEvents st.events now₁ ++ [rec1]) now₂ =
      cleanupFinishedEvents (cleanupFinishedEvents st.events now₁) now₂ ++ [rec1] := by
    unfold cleanupFinishedEvents
    rw [List.filter_append]
    congr 1
    simp [hrec, hfin]
  have hsched2 : isEventScheduled
      (cleanupFinishedEvents (cleanupFinishedEvents st.events now₁) now₂ ++ [rec1])
      event.id = true := by
    unfold isEventScheduled
    rw [List.any_eq_true]
    exact ⟨rec1, by simp, by simp [hrec]⟩
  have hstep2 : fetchAndScheduleEvents (fetchAndScheduleEvents st [event] now₁)
      [event] now₂ =
      { st with
        events := cleanupFinishedEvents (cleanupFinishedEvents st.events now₁) now₂ ++ [rec1]
        timers := st.timers ++ [event.id] } := by
    rw [hstep1]
    unfold fetchAndScheduleEvents
    rw [hpass]
    simp only [List.foldl_cons, List.foldl_nil]
    have hcl : cleanupFinishedEvents
        (cleanupFinishedEvents st.events now₁ ++ [rec1]) now₂ =
        cleanupFinishedEvents (cleanupFinishedEvents st.events now₁) now₂ ++ [rec1] := hclean2
    unfold scheduleEventNotification
    simp only [hcl, hsched2]
    rw [if_pos (by simp)]
  rw [hstep2]
  refine ⟨?_, ?_, ?_⟩
  · have : List.count event.id st.timers = 0 := List.count_eq_zero.2 htimer
    simp [List.count_append, this]
  · rw [List.filter_append]
    have habs2 : ∀ e ∈ cleanupFinishedEvents (cleanupFinishedEvents st.events now₁) now₂,
        e.id ≠ event.id :=
      cleanup_preserves_absent now₂ habs1
    have hnil : List.filter (fun e => e.id == event.id)
        (cleanupFinishedEvents (cleanupFinishedEvents st.events now₁) now₂) = [] := by
      rw [List.filter_eq_nil_iff]
      intro e he
      simp [habs2 e he]
    rw [hnil]
    simp [hrec]
  · intro e he hid
    rcases List.mem_append.1 he with hmem | hmem
    · exact absurd hid (cleanup_preserves_absent now₂ habs1 e hmem)
    · have : e = rec1 := by simpa using hmem
      subst this
      simp [hrec]

/-- Witness for C5 at a concrete event and empty initial store. -/
theorem reminder_scheduling_idempotent_witness :
    (fetchAndScheduleEvents (fetchAndScheduleEvents ⟨[], [], [], 0⟩
        [⟨7, "c", "u", 100, 200, "Jeopardy", false⟩] 0)
        [⟨7, "c", "u", 100, 200, "Jeopardy", false⟩] 0).timers.count 7 = 1 :=
  (reminder_scheduling_idempotent ⟨[], [], [], 0⟩
    ⟨7, "c", "u", 100, 200, "Jeopardy", false⟩ 0 0 rfl rfl
    (by simp) (by simp) (by decide) (by decide) (by decide)).1

/-- Claim C7: when a reminder timer fires, exactly one delivery is attempted
(no retry) whether or not it succeeds, the armed-timer table is not re-armed,
the store update is exactly `markEventNotified`, and the record for the event
id ends with `notified = true`; the result is independent of delivery
success. -/
theorem reminder_fire_notified_once (st : SchedState) (event : CTFTimeEvent)
    (sendOk : Bool) (i : Nat) (existing : ScheduledEvent)
    (hidx : List.findIdx? (fun e => e.id == event.id) st.events = some i)
    (hget : st.events[i]? = some existing) :
    (fireReminder st event sendOk).sends = st.sends ++ [event.id] ∧
    (fireReminder st event sendOk).timers = st.timers ∧
    (fireReminder st event sendOk).events = markEventNotified st.events event.id ∧
    (fireReminder st event sendOk).events[i]? =
      some ⟨existing.toCTFTimeEvent, existing.scheduled, true⟩ ∧
    (fireReminder st event sendOk).events = (fireReminder st event (!sendOk)).events := by
  refine ⟨rfl, rfl, rfl, ?_, rfl⟩
  show (markEventNotified st.events event.id)[i]? = _
  have heq : markEventNotified st.events event.id =
      st.events.set i ⟨existing.toCTFTimeEvent, existing.scheduled, true⟩ := by
    simp only [markEventNotified, hidx, hget]
  rw [heq, List.getElem?_set_self']
  simp [hget]

/-- Witness for C7 on a one-record store with a failing delivery. -/
theorem reminder_fire_notified_once_witness :
    (fireReminder ⟨[⟨⟨7, "c", "u", 100, 200, "Jeopardy", false⟩, true, false⟩], [7], [], 0⟩
        ⟨7, "c", "u", 100, 200, "Jeopardy", false⟩ false).events[0]? =
      some ⟨⟨7, "c", "u", 100, 200, "Jeopardy", false⟩, true, true⟩ :=
  (reminder_fire_notified_once
    ⟨[⟨⟨7, "c", "u", 100, 200, "Jeopardy", false⟩, true, false⟩], [7], [], 0⟩
    ⟨7, "c", "u", 100, 200, "Jeopardy", false⟩ false 0
    ⟨⟨7, "c", "u", 100, 200, "Jeopardy", false⟩, true, false⟩
    (by decide) (by decide)).2.2.2.1

/-- Claim C9: `markEventScheduled` on an id already present overwrites the
(first) record with that id — new event fields, `scheduled := true` — while
preserving that record's `notified` flag, and leaves every other position
(in particular every record with a different event id) unchanged. -/
theorem markEventScheduled_overwrites (events : List ScheduledEvent)
    (event : CTFTimeEvent) (i : Nat) (existing : ScheduledEvent)
    (hidx : List.findIdx? (fun e => e.id == event.id) events = some i)
    (hget : events[i]? = some existing) :
    markEventScheduled events event = events.set i ⟨event, true, existing.notified⟩ ∧
    (markEventScheduled events event)[i]? = some ⟨event, true, existing.notified⟩ ∧
    (∀ j, j ≠ i → (markEventScheduled events event)[j]? = events[j]?) ∧
    ∀ (j : Nat) (e' : ScheduledEvent), events[j]? = some e' → e'.id ≠ event.id →
      (markEventScheduled events event)[j]? = some e' := by
  have heq : markEventScheduled events event =
      events.set i ⟨event, true, existing.notified⟩ := by
    simp only [markEventScheduled, hidx, hget]
  have hlen : i < events.length := by
    by_contra hlt
    rw [List.getElem?_eq_none (by omega)] at hget
    exact Option.noConfusion hget
  have hne : ∀ j, j ≠ i → (markEventScheduled events event)[j]? = events[j]? := by
    intro j hj
    rw [heq, List.getElem?_set_ne (by omega)]
  refine ⟨heq, ?_, hne, ?_⟩
  · rw [heq, List.getElem?_set_self']
    simp [hget]
  · intro j e' hj hid
    have hji : j ≠ i := by
      intro hcontra
      subst hcontra
      obtain ⟨x, hx, hpx⟩ := findIdx?_zero_get _ _ _ hidx
      rw [hj] at hx
      have : e' = x := by simpa using hx
      subst this
      exact hid (by simpa using hpx)
    rw [hne j hji, hj]

/-- Witness for C9 on a two-record store. -/
theorem markEventScheduled_overwrites_witness :
    (markEventScheduled
        [⟨⟨5, "a", "u", 10, 20, "Jeopardy", false⟩, true, true⟩,
         ⟨⟨6, "b", "v", 30, 40, "Jeopardy", false⟩, true, false⟩]
        ⟨5, "a2", "u2", 11, 21, "Jeopardy", false⟩)[0]? =
      some ⟨⟨5, "a2", "u2", 11, 21, "Jeopardy", false⟩, true, true⟩ :=
  (markEventScheduled_overwrites
    [⟨⟨5, "a", "u", 10, 20, "Jeopardy", false⟩, true, true⟩,
     ⟨⟨6, "b", "v", 30, 40, "Jeopardy", false⟩, true, false⟩]
    ⟨5, "a2", "u2", 11, 21, "Jeopardy", false⟩ 0
    ⟨⟨5, "a", "u", 10, 20, "Jeopardy", false⟩, true, true⟩
    (by decide) (by decide)).2.1

/-! ### Shared fixtures for witness theorems -/

/-- An environment whose fetches all come back empty / not found. -/
def env0 : CtfdEnv :=
  { findTeam := fun _ _ _ => none
    challenges := fun _ _ => 0
    solves := fun _ _ _ => []
    rankOf := fun _ _ _ => ("?", 0)
    eventName := fun _ _ => "Unknown Event" }

/-- An environment that resolves every team lookup to team 9 and returns one
solve of challenge 3 worth 100 points. -/
def env1 : CtfdEnv :=
  { findTeam := fun _ _ _ => some ⟨9, "alpha", 100, "1st"⟩
    challenges := fun _ _ => 5
    solves := fun _ _ _ => [⟨3, ⟨3, "pwn1", "pwn", 100⟩, ⟨1, "solver"⟩, ⟨9, "alpha"⟩, "d"⟩]
    rankOf := fun _ _ _ => ("1st", 10)
    eventName := fun _ _ => "TestCTF" }

/-- The empty tracker state. -/
def st0 : CtfdState :=
  { activeSessions := [], store := [], liveTimers := [], nextTimer := 0, messages := [] }

/-- A live session for chat 1 holding timer handles 0 and 1. -/
def sess1 : TrackingSession :=
  { chatId := 1
    ctfdUrl := "u"
    teamName := "alpha"
    accessToken := "t"
    teamId := some 9
    knownSolves := [3]
    notifiedSolves := [3]
    pollInterval := some 0
    summaryTimeout := some 1
    endTime := 500000
    totalChallenges := 5 }

/-- A tracker state with `sess1` live for chat 1 and mirrored in the store. -/
def st1 : CtfdState :=
  { activeSessions := [(1, sess1)]
    store := [toPersisted 1 sess1]
    liveTimers := [0, 1]
    nextTimer := 2
    messages := [] }

/-! ### Claim C1: the notified-subset-of-known invariant -/

/-- Claim C1: for every state in which each live session satisfies
`notifiedSolveIds ⊆ knownSolveIds`, the invariant still holds for every
session after `startTracking` (session creation), after any number of
iterations of the solve-processing loop of a poll cycle (any prefix of the
fold of `pollStep`, hence at every iteration boundary, and in particular
after the full `pollSolves` cycle), and after `restoreCtfdSessions`
(provided each persisted record also satisfies it). -/
theorem notified_subset_known_invariant (st : CtfdState) (hinv : sessionInv st) :
    (∀ env chatId url name tok endTime now,
      sessionInv (startTracking env st chatId url name tok endTime now).2) ∧
    (∀ env chatId, sessionInv (pollSolves env st chatId)) ∧
    (∀ (env : CtfdEnv) (chatId tid : Int) (allSolves iter : List CTFdSolve)
       (session : TrackingSession),
      mapGet st.activeSessions chatId = some session →
      sessionInv (iter.foldl (pollStep env chatId tid allSolves) (st, session)).1) ∧
    (∀ env now, (∀ p ∈ st.store, persistedOk p) →
      sessionInv (restoreCtfdSessions env now st)) := by
  refine ⟨?_, ?_, ?_, ?_⟩
  · exact fun env k url name tok e n => startTracking_inv env k url name tok e n hinv
  · exact fun env k => pollSolves_inv env k hinv
  · exact fun env k tid allSolves iter session hs =>
      (foldl_pollStep_inv env k tid allSolves iter
        (⟨hinv, hinv _ _ hs⟩ : pollInv (st, session))).1
  · exact fun env now hp => restoreCtfdSessions_inv env now hinv hp

/-- Witness for C1 on the concrete state `st1` (one live session with
`notifiedSolves ⊆ knownSolves`) and the concrete environment `env1`. -/
theorem notified_subset_known_invariant_witness :
    sessionInv st1 ∧ sessionInv (pollSolves env1 st1 1) := by
  have hinv : sessionInv st1 := by
    intro k s h
    simp only [st1, mapGet, List.find?] at h
    by_cases hk : (1 : Int) = k
    · rw [show ((1 : Int) == k) = true by simpa using hk] at h
      obtain rfl : sess1 = s := by simpa using h
      intro x hx
      simpa [sess1] using hx
    · rw [show ((1 : Int) == k) = false by simpa using hk] at h
      simp at h
  exact ⟨hinv, (notified_subset_known_invariant st1 hinv).2.1 env1 1⟩

/-! ### Claim C8: the MarkdownV2 escaper -/

theorem backslash_not_escSet : '\\' ∉ escSet := by decide

theorem escChars_backslash_before (l : List Char) :
    ∀ (i : Nat) (c : Char), (escChars l)[i]? = some c → c ∈ escSet →
      1 ≤ i ∧ (escChars l)[i - 1]? = some '\\' := by
  induction l with
  | nil => intro i c hi hc; simp [escChars] at hi
  | cons a l ih =>
    intro i c hi hc
    by_cases ha : a ∈ escSet
    · rw [show escChars (a :: l) = '\\' :: a :: escChars l by simp [escChars, ha]] at hi ⊢
      match i with
      | 0 =>
        obtain rfl : '\\' = c := by simpa using hi
        exact absurd hc backslash_not_escSet
      | 1 => exact ⟨le_refl _, by simp⟩
      | (j + 2) =>
        rw [List.getElem?_cons_succ, List.getElem?_cons_succ] at hi
        obtain ⟨h1, h2⟩ := ih j c hi hc
        obtain ⟨j', rfl⟩ : ∃ j', j = j' + 1 := ⟨j - 1, by omega⟩
        refine ⟨by omega, ?_⟩
        simpa using h2
    · rw [show escChars (a :: l) = a :: escChars l by simp [escChars, ha]] at hi ⊢
      match i with
      | 0 =>
        obtain rfl : a = c := by simpa using hi
        exact absurd hc ha
      | (j + 1) =>
        rw [List.getElem?_cons_succ] at hi
        obtain ⟨h1, h2⟩ := ih j c hi hc
        obtain ⟨j', rfl⟩ : ∃ j', j = j' + 1 := ⟨j - 1, by omega⟩
        refine ⟨by omega, ?_⟩
        simpa using h2

theorem escChars_passthrough (l : List Char) :
    (escChars l).filter (fun c => !(decide (c ∈ escSet) || c == '\\')) =
      l.filter (fun c => !(decide (c ∈ escSet) || c == '\\')) := by
  induction l with
  | nil => rfl
  | cons a l ih =>
    by_cases ha : a ∈ escSet
    · rw [show escChars (a :: l) = '\\' :: a :: escChars l by simp [escChars, ha]]
      have hbs : (!(decide (('\\' : Char) ∈ escSet) || ('\\' : Char) == '\\')) = false := by
        decide
      have hca : (!(decide (a ∈ escSet) || a == '\\')) = false := by
        rw [decide_eq_true ha]
        rfl
      simp only [List.filter_cons, hbs, hca]
      rw [if_neg Bool.false_ne_true, if_neg Bool.false_ne_true]
      exact ih
    · rw [show escChars (a :: l) = a :: escChars l by simp [escChars, ha]]
      simp only [List.filter_cons, ih]

theorem escChars_length (l : List Char) :
    (escChars l).length = l.length + l.countP (fun c => decide (c ∈ escSet)) := by
  induction l with
  | nil => rfl
  | cons a l ih =>
    by_cases ha : a ∈ escSet
    · rw [show escChars (a :: l) = '\\' :: a :: escChars l by simp [escChars, ha]]
      have hpa : (decide (a ∈ escSet)) = true := decide_eq_true ha
      simp only [List.length_cons, List.countP_cons, hpa, ih, if_true]
      omega
    · rw [show escChars (a :: l) = a :: escChars l by simp [escChars, ha]]
      have hpa : (decide (a ∈ escSet)) = false := decide_eq_false ha
      simp only [List.length_cons, List.countP_cons, hpa, ih]
      rw [if_neg Bool.false_ne_true]
      omega

/-- Counterexample to claim C8 as stated: for the input consisting of a
literal backslash followed by an underscore, the escaper's output is
backslash-backslash-underscore, in which the escape-set character `_` is
preceded by a run of two backslashes, not exactly one (the literal backslash
is not in the escape set and passes through unchanged, merging with the
inserted one).  On a backslash-free input the exactly-one reading does
hold. -/
theorem escaper_exactly_one_cex :
    (escapeMarkdownV2 ⟨['\\', '_']⟩).data = ['\\', '\\', '_'] ∧
    precededByExactlyOne (escapeMarkdownV2 ⟨['\\', '_']⟩).data = false ∧
    precededByExactlyOne (escapeMarkdownV2 ⟨['a', '_']⟩).data = true := by
  decide

/-- Claim C8, amended: in the escaper's output every escape-set character is
immediately preceded by a backslash (the escaper inserts exactly one
backslash per escape-set character, as the length equation states), and the
characters outside the escape set other than the backslash itself pass
through unchanged; a run of more than one backslash before an escaped
character can occur only when the input itself contains backslashes. -/
theorem escaper_backslash_escapes (s : String) :
    (∀ (i : Nat) (c : Char), (escapeMarkdownV2 s).data[i]? = some c → c ∈ escSet →
      1 ≤ i ∧ (escapeMarkdownV2 s).data[i - 1]? = some '\\') ∧
    (escapeMarkdownV2 s).data.filter (fun c => !(decide (c ∈ escSet) || c == '\\')) =
      s.data.filter (fun c => !(decide (c ∈ escSet) || c == '\\')) ∧
    (escapeMarkdownV2 s).data.length =
      s.data.length + s.data.countP (fun c => decide (c ∈ escSet)) :=
  ⟨escChars_backslash_before s.data, escChars_passthrough s.data,
    escChars_length s.data⟩

/-- Witness for the amended C8 at the concrete input "_". -/
theorem escaper_backslash_escapes_witness :
    1 ≤ 1 ∧ (escapeMarkdownV2 ⟨['_']⟩).data[1 - 1]? = some '\\' :=
  (escaper_backslash_escapes ⟨['_']⟩).1 1 '_' (by decide) (by decide)

/-! ### Equation and frame lemmas for `stopTracking` and `startTracking` -/

theorem toPersisted_chatId (c : Int) (s : TrackingSession) :
    (toPersisted c s).chatId = c := rfl

theorem stopTracking_of_none {st : CtfdState} {k : Int}
    (h : mapGet st.activeSessions k = none) : stopTracking st k = st := by
  unfold stopTracking
  rw [h]

theorem stopTracking_mapGet_self (st : CtfdState) (k : Int) :
    mapGet (stopTracking st k).activeSessions k = none := by
  unfold stopTracking
  split
  · assumption
  · show mapGet (mapDelete st.activeSessions k) k = none
    rw [mapGet_mapDelete, if_pos rfl]

theorem stopTracking_store_frame (st : CtfdState) (k : Int) :
    ∀ q ∈ (stopTracking st k).store, q.chatId = k → q ∈ st.store := by
  unfold stopTracking
  split
  · exact fun q hq _ => hq
  · intro q hq hk
    simp only [saveActive, List.mem_map] at hq
    obtain ⟨e, he, rfl⟩ := hq
    have : e.1 ≠ k := by
      have := List.of_mem_filter he
      simpa using this
    exact absurd hk this

theorem startTracking_of_ended (env : CtfdEnv) (st : CtfdState) (k : Int)
    (url name tok : String) {endTime now : Int} (hend : endTime ≤ now) :
    startTracking env st k url name tok endTime now =
      ("Error: CTF has already ended", stopTracking st k) := by
  unfold startTracking
  rw [if_pos hend]

theorem startTracking_of_notfound (env : CtfdEnv) (st : CtfdState) (k : Int)
    {url name tok : String} {endTime now : Int} (hend : ¬ endTime ≤ now)
    (hteam : env.findTeam url name tok = none) :
    startTracking env st k url name tok endTime now =
      ("Error: Team \"" ++ name ++ "\" not found", stopTracking st k) := by
  unfold startTracking
  rw [if_neg hend, hteam]

/-! ### Claim C2 (corrected): start with a past end instant -/

/-- Counterexample to claim C2 as stated: starting on chat 1 — which holds
the live session `sess1`, mirrored in the durable store — with
`endTime = 0 ≤ now = 5` does return the "already ended" outcome, yet the
durable store is rewritten (the pre-existing record for chat 1 is gone) and
the live session is destroyed, because `startTracking` unconditionally stops
the existing session before validating the end time. -/
theorem start_already_ended_cex :
    mapGet st1.activeSessions 1 = some sess1 ∧
    (startTracking env0 st1 1 "u" "alpha" "t" 0 5).1 = "Error: CTF has already ended" ∧
    (startTracking env0 st1 1 "u" "alpha" "t" 0 5).2.store ≠ st1.store ∧
    mapGet (startTracking env0 st1 1 "u" "alpha" "t" 0 5).2.activeSessions 1 = none := by
  decide

/-- Claim C2, amended: `start` with an end instant not after `now` returns
the "already ended" outcome and creates no session, and when no live session
existed for the key the state (in particular the durable store) is unchanged;
but when a live session for the key already existed, `start` has first
unconditionally stopped it — its timers are cancelled, it is removed from the
live set, and the store is rewritten without it — because the supersession
step runs before the precondition check. -/
theorem start_already_ended (env : CtfdEnv) (st : CtfdState) (k : Int)
    (url name tok : String) (endTime now : Int) (hend : endTime ≤ now) :
    startTracking env st k url name tok endTime now =
      ("Error: CTF has already ended", stopTracking st k) ∧
    mapGet (startTracking env st k url name tok endTime now).2.activeSessions k = none ∧
    (mapGet st.activeSessions k = none →
      startTracking env st k url name tok endTime now =
        ("Error: CTF has already ended", st)) := by
  have heq := startTracking_of_ended env st k url name tok hend
  refine ⟨heq, ?_, ?_⟩
  · rw [heq]
    exact stopTracking_mapGet_self st k
  · intro hnone
    rw [heq, stopTracking_of_none hnone]

/-- Witness for the amended C2 on the empty state. -/
theorem start_already_ended_witness :
    startTracking env0 st0 1 "u" "alpha" "t" 0 5 =
      ("Error: CTF has already ended", stopTracking st0 1) ∧
    mapGet (startTracking env0 st0 1 "u" "alpha" "t" 0 5).2.activeSessions 1 = none ∧
    (mapGet st0.activeSessions 1 = none →
      startTracking env0 st0 1 "u" "alpha" "t" 0 5 =
        ("Error: CTF has already ended", st0)) :=
  start_already_ended env0 st0 1 "u" "alpha" "t" 0 5 (by decide)

/-! ### Claim C6: start with an unresolvable team -/

/-- Claim C6: when the end time is still in the future but the team lookup
resolves to nothing, `start` returns the "team not found" error, the live set
holds no session for the key afterwards, and no state for that key is newly
persisted (any record for the key still in the store was already there
before the call; the code path only ran the supersession step, which never
adds a record for the key). -/
theorem start_team_not_found (env : CtfdEnv) (st : CtfdState) (k : Int)
    (url name tok : String) (endTime now : Int) (hend : ¬ endTime ≤ now)
    (hteam : env.findTeam url name tok = none) :
    (startTracking env st k url name tok endTime now).1 =
      "Error: Team \"" ++ name ++ "\" not found" ∧
    mapGet (startTracking env st k url name tok endTime now).2.activeSessions k = none ∧
    ∀ q ∈ (startTracking env st k url name tok endTime now).2.store,
      q.chatId = k → q ∈ st.store := by
  have heq := startTracking_of_notfound env st k hend hteam
  rw [heq]
  exact ⟨rfl, stopTracking_mapGet_self st k, stopTracking_store_frame st k⟩

/-- Witness for C6 with the not-found environment `env0`. -/
theorem start_team_not_found_witness :
    (startTracking env0 st0 1 "u" "ghost" "t" 10 0).1 =
      "Error: Team \"ghost\" not found" :=
  (start_team_not_found env0 st0 1 "u" "ghost" "t" 10 0 (by decide) rfl).1

/-! ### The success path of `startTracking` (claim C4) -/

theorem mapSet_mapSet (m : List (Int × TrackingSession)) (k : Int)
    (v w : TrackingSession) : mapSet (mapSet m k v) k w = mapSet m k w := by
  unfold mapSet
  rw [List.filter_append]
  have h1 : (List.filter (fun e => !(e.1 == k)) m).filter (fun e => !(e.1 == k)) =
      List.filter (fun e => !(e.1 == k)) m := by
    rw [List.filter_filter]
    congr 1
    funext a
    rw [Bool.and_self]
  have h2 : List.filter (fun e => !((k, v).1 == k)) [(k, v)] = ([] : List (Int × TrackingSession)) := by
    simp
  rw [h1]
  simp

theorem stopTracking_nextTimer (st : CtfdState) (k : Int) :
    (stopTracking st k).nextTimer = st.nextTimer := by
  unfold stopTracking
  split <;> rfl

theorem stopTracking_of_some {st : CtfdState} {k : Int} {s1 : TrackingSession}
    (h : mapGet st.activeSessions k = some s1) :
    stopTracking st k = saveActive { st with
      liveTimers := st.liveTimers.filter
        (fun t => !(s1.pollInterval == some t || s1.summaryTimeout == some t))
      activeSessions := mapDelete st.activeSessions k } := by
  unfold stopTracking
  rw [h]

theorem filter_map_toPersisted (m : List (Int × TrackingSession)) (k : Int)
    (v : TrackingSession) :
    ((mapSet m k v).map (fun e => toPersisted e.1 e.2)).filter
      (fun q => q.chatId == k) = [toPersisted k v] := by
  unfold mapSet
  rw [List.map_append, List.filter_append]
  have h1 : (List.map (fun e => toPersisted e.1 e.2)
      (List.filter (fun e => !(e.1 == k)) m)).filter (fun q => q.chatId == k) = [] := by
    rw [List.filter_eq_nil_iff]
    intro q hq
    rw [List.mem_map] at hq
    obtain ⟨e, he, rfl⟩ := hq
    have : e.1 ≠ k := by
      have := List.of_mem_filter he
      simpa using this
    simpa [toPersisted_chatId] using this
  rw [h1]
  simp [toPersisted]

theorem map_toPersisted_mapSet (m : List (Int × TrackingSession)) (k : Int)
    (v w : TrackingSession) (h : toPersisted k v = toPersisted k w) :
    (mapSet m k v).map (fun e => toPersisted e.1 e.2) =
      (mapSet m k w).map (fun e => toPersisted e.1 e.2) := by
  unfold mapSet
  rw [List.map_append, List.map_append]
  simp [h]

/-- The fully successful path of `startTracking` (future end time, team
resolved, more than the two-minute lead remaining): the first session for the
key is stopped, the new session — team id resolved, `notifiedSolves` empty,
both timers freshly armed from the handle counter — replaces it in the live
map, and the store snapshot taken just before arming the timers coincides
with the map of the final live set. -/
theorem startTracking_success (env : CtfdEnv) (st : CtfdState) (k : Int)
    (url name tok : String) (endTime now : Int) (team : CTFdTeam)
    (hend : ¬ endTime ≤ now) (hteam : env.findTeam url name tok = some team)
    (hlead : 0 < endTime - now - 2 * 60 * 1000) :
    startTracking env st k url name tok endTime now =
      ("Started tracking team \"" ++ name ++
          "\". Will send summary 2 minutes before CTF ends.",
        { activeSessions := mapSet (stopTracking st k).activeSessions k
            { chatId := k
              ctfdUrl := url
              teamName := name
              accessToken := tok
              teamId := some team.id
              knownSolves := listToSet ((env.solves url team.id tok).map
                (fun s => s.challenge_id))
              notifiedSolves := []
              pollInterval := some (stopTracking st k).nextTimer
              summaryTimeout := some ((stopTracking st k).nextTimer + 1)
              endTime := endTime
              totalChallenges := env.challenges url tok }
          store := (mapSet (stopTracking st k).activeSessions k
            { chatId := k
              ctfdUrl := url
              teamName := name
              accessToken := tok
              teamId := some team.id
              knownSolves := listToSet ((env.solves url team.id tok).map
                (fun s => s.challenge_id))
              notifiedSolves := []
              pollInterval := some (stopTracking st k).nextTimer
              summaryTimeout := some ((stopTracking st k).nextTimer + 1)
              endTime := endTime
              totalChallenges := env.challenges url tok }).map
            (fun e => toPersisted e.1 e.2)
          liveTimers := (stopTracking st k).liveTimers ++
            [(stopTracking st k).nextTimer, (stopTracking st k).nextTimer + 1]
          nextTimer := (stopTracking st k).nextTimer + 2
          messages := (stopTracking st k).messages }) := by
  unfold startTracking
  rw [if_neg hend, hteam]
  dsimp only
  rw [if_pos hlead]
  refine congrArg (Prod.mk _) ?_
  dsimp only [saveActive]
  simp only [CtfdState.mk.injEq]
  refine ⟨?_, ?_, ?_, ?_, ?_⟩
  · rw [mapSet_mapSet, mapSet_mapSet]
  · exact map_toPersisted_mapSet _ _ _ _ rfl
  · simp
  · simp
  · simp

/-- Claim C4: a successful second `start` on a key that already holds a live
session (team resolved, future end time, more than the two-minute lead
remaining, so the outcome is "started") cancels both of the first session's
timers — neither handle is armed afterwards — and leaves the live set and the
durable store holding exactly one record for the key: the second session's
(team id freshly resolved, `notifiedSolves` empty).  The freshness hypotheses
`t1 < st.nextTimer`, `t2 < st.nextTimer` say the first session's handles were
previously allocated by the counter. -/
theorem second_start_supersedes (env : CtfdEnv) (st : CtfdState) (k : Int)
    (url name tok : String) (endTime now : Int) (s1 : TrackingSession)
    (t1 t2 : Nat) (team : CTFdTeam)
    (hs1 : mapGet st.activeSessions k = some s1)
    (hp : s1.pollInterval = some t1) (hq : s1.summaryTimeout = some t2)
    (hf1 : t1 < st.nextTimer) (hf2 : t2 < st.nextTimer)
    (hend : ¬ endTime ≤ now) (hteam : env.findTeam url name tok = some team)
    (hlead : 0 < endTime - now - 2 * 60 * 1000) :
    t1 ∉ (startTracking env st k url name tok endTime now).2.liveTimers ∧
    t2 ∉ (startTracking env st k url name tok endTime now).2.liveTimers ∧
    ∃ s2 : TrackingSession,
      mapGet (startTracking env st k url name tok endTime now).2.activeSessions k =
        some s2 ∧
      s2.teamId = some team.id ∧ s2.teamName = name ∧ s2.notifiedSolves = [] ∧
      (startTracking env st k url name tok endTime now).2.store.filter
        (fun q => q.chatId == k) = [toPersisted k s2] ∧
      ((startTracking env st k url name tok endTime now).2.activeSessions.filter
        (fun e => e.1 == k)).length = 1 := by
  have heq := startTracking_success env st k url name tok endTime now team hend hteam hlead
  rw [heq]
  dsimp only
  have hn : (stopTracking st k).nextTimer = st.nextTimer := stopTracking_nextTimer st k
  have hlive : (stopTracking st k).liveTimers = st.liveTimers.filter
      (fun t => !(s1.pollInterval == some t || s1.summaryTimeout == some t)) := by
    rw [stopTracking_of_some hs1]
    rfl
  refine ⟨?_, ?_, ?_⟩
  · intro hmem
    rw [List.mem_append] at hmem
    rcases hmem with hmem | hmem
    · rw [hlive] at hmem
      have hpred := List.of_mem_filter hmem
      rw [hp] at hpred
      simp at hpred
    · have ht : t1 = (stopTracking st k).nextTimer ∨
          t1 = (stopTracking st k).nextTimer + 1 := by simpa using hmem
      rw [hn] at ht
      omega
  · intro hmem
    rw [List.mem_append] at hmem
    rcases hmem with hmem | hmem
    · rw [hlive] at hmem
      have hpred := List.of_mem_filter hmem
      rw [hq] at hpred
      simp at hpred
    · have ht : t2 = (stopTracking st k).nextTimer ∨
          t2 = (stopTracking st k).nextTimer + 1 := by simpa using hmem
      rw [hn] at ht
      omega
  · refine ⟨_, mapGet_mapSet_self _ _ _, rfl, rfl, rfl, ?_, ?_⟩
    · exact filter_map_toPersisted _ _ _
    · rw [filter_mapSet_self]
      rfl

/-- Witness for C4: chat 1 of `st1` holds `sess1` with timer handles 0 and 1;
restarting with the resolving environment `env1` drops both handles. -/
theorem second_start_supersedes_witness :
    (0 : Nat) ∉ (startTracking env1 st1 1 "u" "alpha" "t" 300000 0).2.liveTimers :=
  (second_start_supersedes env1 st1 1 "u" "alpha" "t" 300000 0 sess1 0 1
    ⟨9, "alpha", 100, "1st"⟩ (by decide) (by decide) (by decide) (by decide)
    (by decide) (by decide) rfl (by decide)).1

/-! ### Claim C10: restoring a legacy record without `notifiedSolves` -/

/-- One restore iteration on a record with a future end time and more than
the lead time remaining: the reconstructed session goes live with both timers
re-armed; the store and message log are untouched. -/
theorem restoreOne_future_lead (env : CtfdEnv) (now : Int) (st : CtfdState)
    (p : PersistedSession) (hfut : ¬ p.endTime ≤ now)
    (hlead : 0 < p.endTime - now - 2 * 60 * 1000) :
    restoreOne env now st p =
      { activeSessions := mapSet st.activeSessions p.chatId
          { restoredSession p with
            pollInterval := some st.nextTimer
            summaryTimeout := some (st.nextTimer + 1) }
        store := st.store
        liveTimers := st.liveTimers ++ [st.nextTimer, st.nextTimer + 1]
        nextTimer := st.nextTimer + 2
        messages := st.messages } := by
  unfold restoreOne
  rw [if_neg hfut]
  dsimp only
  rw [if_pos hlead]
  simp only [CtfdState.mk.injEq]
  refine ⟨?_, ?_, ?_, ?_, ?_⟩
  · rw [mapSet_mapSet, mapSet_mapSet]
  · trivial
  · simp
  · simp
  · trivial

/-- Claim C10: a persisted record whose `notifiedSolves` field is absent (a
legacy record) is restored — not rejected — as a session whose
`notifiedSolves` set is empty, so `notifiedSolves ⊆ knownSolves` holds for it
immediately after the restore pass. -/
theorem legacy_record_restores_empty_notified (env : CtfdEnv) (now : Int)
    (st : CtfdState) (p : PersistedSession)
    (hleg : p.notifiedSolves = none) (hstore : st.store = [p])
    (hfut : ¬ p.endTime ≤ now) (hlead : 0 < p.endTime - now - 2 * 60 * 1000) :
    (restoredSession p).notifiedSolves = [] ∧
    ∃ s : TrackingSession,
      mapGet (restoreCtfdSessions env now st).activeSessions p.chatId = some s ∧
      s.notifiedSolves = [] ∧ s.knownSolves = listToSet p.knownSolves ∧
      s.notifiedSolves ⊆ s.knownSolves := by
  have hempty : (restoredSession p).notifiedSolves = [] := by
    show listToSet (p.notifiedSolves.getD []) = []
    rw [hleg]
    rfl
  have hfold : restoreCtfdSessions env now st = restoreOne env now st p := by
    unfold restoreCtfdSessions
    rw [hstore]
    rfl
  rw [hfold, restoreOne_future_lead env now st p hfut hlead]
  refine ⟨hempty, _, mapGet_mapSet_self _ _ _, hempty, rfl, ?_⟩
  rw [hempty]
  exact List.nil_subset _

/-- Witness for C10 on a concrete legacy record (no `notifiedSolves`). -/
theorem legacy_record_restores_empty_notified_witness :
    (restoredSession ⟨2, "u", "beta", "t", some 4, [5, 6], none, 400000, 7⟩).notifiedSolves =
      [] :=
  (legacy_record_restores_empty_notified env0 0
    ⟨[], [⟨2, "u", "beta", "t", some 4, [5, 6], none, 400000, 7⟩], [], 0, []⟩
    ⟨2, "u", "beta", "t", some 4, [5, 6], none, 400000, 7⟩
    rfl rfl (by decide) (by decide)).1

/-! ### Frame lemmas for the restore pass (claim C3) -/

theorem mapGet_eq_none_iff (m : List (Int × TrackingSession)) (k : Int) :
    mapGet m k = none ↔ ∀ e ∈ m, e.1 ≠ k := by
  unfold mapGet
  rw [Option.map_eq_none', List.find?_eq_none]
  constructor
  · intro h e he
    simpa using h e he
  · intro h e he
    simpa using h e he

/-- The summary message `sendSummary` sends for a live session `s` with team
id `tid`. -/
def summaryMessage (env : CtfdEnv) (s : TrackingSession) (tid : Int) : String :=
  formatSummary (env.eventName s.ctfdUrl s.accessToken) s.teamName
    (env.solves s.ctfdUrl tid s.accessToken).length s.totalChallenges
    ((env.solves s.ctfdUrl tid s.accessToken).foldl
      (fun sum x => sum + x.challenge.value) 0)
    (env.rankOf s.ctfdUrl tid s.accessToken).1
    (env.rankOf s.ctfdUrl tid s.accessToken).2

theorem sendSummary_of_absent (env : CtfdEnv) (st : CtfdState) (j : Int)
    (h : mapGet st.activeSessions j = none) : sendSummary env st j = st := by
  unfold sendSummary
  rw [h]

theorem sendSummary_of_noteam (env : CtfdEnv) (st : CtfdState) (j : Int)
    (s : TrackingSession) (hs : mapGet st.activeSessions j = some s)
    (ht : s.teamId = none) : sendSummary env st j = st := by
  simp only [sendSummary, hs, ht]

theorem sendSummary_of_some (env : CtfdEnv) (st : CtfdState) (j : Int)
    (s : TrackingSession) (tid : Int) (hs : mapGet st.activeSessions j = some s)
    (ht : s.teamId = some tid) :
    sendSummary env st j = stopTracking
      { st with messages := st.messages ++ [(j, summaryMessage env s tid)] } j := by
  simp only [sendSummary, hs, ht, summaryMessage]

theorem restoreOne_expired (env : CtfdEnv) (now : Int) (st : CtfdState)
    (p : PersistedSession) (h : p.endTime ≤ now) : restoreOne env now st p = st := by
  unfold restoreOne
  rw [if_pos h]

/-- One restore iteration on a record with a future end time but less than
the lead time remaining: after going live with the poll timer armed, the
summary is sent synchronously. -/
theorem restoreOne_future_now (env : CtfdEnv) (now : Int) (st : CtfdState)
    (p : PersistedSession) (hfut : ¬ p.endTime ≤ now)
    (hlead : ¬ 0 < p.endTime - now - 2 * 60 * 1000) :
    restoreOne env now st p = sendSummary env
      { activeSessions := mapSet st.activeSessions p.chatId
          { restoredSession p with pollInterval := some st.nextTimer }
        store := st.store
        liveTimers := st.liveTimers ++ [st.nextTimer]
        nextTimer := st.nextTimer + 1
        messages := st.messages } p.chatId := by
  unfold restoreOne
  rw [if_neg hfut]
  dsimp only
  rw [if_neg hlead]
  congr 1
  simp only [CtfdState.mk.injEq]
  refine ⟨?_, trivial, trivial, trivial, trivial⟩
  rw [mapSet_mapSet]

theorem stopTracking_other_frame (st : CtfdState) (j k : Int) (hne : j ≠ k) :
    mapGet (stopTracking st j).activeSessions k = mapGet st.activeSessions k ∧
    (stopTracking st j).messages = st.messages ∧
    (mapGet st.activeSessions k = none → (∀ r ∈ st.store, r.chatId ≠ k) →
      ∀ r ∈ (stopTracking st j).store, r.chatId ≠ k) := by
  unfold stopTracking
  split
  · exact ⟨rfl, rfl, fun _ hs => hs⟩
  · refine ⟨?_, rfl, ?_⟩
    · show mapGet (mapDelete st.activeSessions j) k = _
      rw [mapGet_mapDelete, if_neg (fun hc => hne hc.symm)]
    · intro hact _ r hr
      simp only [saveActive, List.mem_map] at hr
      obtain ⟨e, he, rfl⟩ := hr
      have he' : e ∈ st.activeSessions := List.mem_of_mem_filter he
      exact (mapGet_eq_none_iff _ _).1 hact e he'

theorem sendSummary_other_frame (env : CtfdEnv) (st : CtfdState) (j k : Int)
    (hne : j ≠ k) :
    mapGet (sendSummary env st j).activeSessions k = mapGet st.activeSessions k ∧
    (sendSummary env st j).messages.filter (fun m => m.1 == k) =
      st.messages.filter (fun m => m.1 == k) ∧
    (mapGet st.activeSessions k = none → (∀ r ∈ st.store, r.chatId ≠ k) →
      ∀ r ∈ (sendSummary env st j).store, r.chatId ≠ k) := by
  cases hs : mapGet st.activeSessions j with
  | none =>
    rw [sendSummary_of_absent env st j hs]
    exact ⟨rfl, rfl, fun _ h => h⟩
  | some s =>
    cases ht : s.teamId with
    | none =>
      rw [sendSummary_of_noteam env st j s hs ht]
      exact ⟨rfl, rfl, fun _ h => h⟩
    | some tid =>
      rw [sendSummary_of_some env st j s tid hs ht]
      obtain ⟨h1, h2, h3⟩ := stopTracking_other_frame
        { st with messages := st.messages ++ [(j, summaryMessage env s tid)] } j k hne
      refine ⟨h1, ?_, fun hact hst => h3 hact hst⟩
      rw [h2]
      rw [List.filter_append]
      have : List.filter (fun m => m.1 == k) [(j, summaryMessage env s tid)] = [] := by
        simp [hne]
      rw [this, List.append_nil]

theorem restoreOne_other_frame (env : CtfdEnv) (now : Int) (st : CtfdState)
    (q : PersistedSession) (k : Int) (hne : q.chatId ≠ k) :
    mapGet (restoreOne env now st q).activeSessions k = mapGet st.activeSessions k ∧
    (restoreOne env now st q).messages.filter (fun m => m.1 == k) =
      st.messages.filter (fun m => m.1 == k) ∧
    (mapGet st.activeSessions k = none → (∀ r ∈ st.store, r.chatId ≠ k) →
      ∀ r ∈ (restoreOne env now st q).store, r.chatId ≠ k) := by
  by_cases hfut : q.endTime ≤ now
  · rw [restoreOne_expired env now st q hfut]
    exact ⟨rfl, rfl, fun _ h => h⟩
  · by_cases hlead : 0 < q.endTime - now - 2 * 60 * 1000
    · rw [restoreOne_future_lead env now st q hfut hlead]
      refine ⟨?_, rfl, fun _ h => h⟩
      exact mapGet_mapSet_ne _ _ (fun hc => hne hc.symm)
    · rw [restoreOne_future_now env now st q hfut hlead]
      obtain ⟨h1, h2, h3⟩ := sendSummary_other_frame env
        { activeSessions := mapSet st.activeSessions q.chatId
            { restoredSession q with pollInterval := some st.nextTimer }
          store := st.store
          liveTimers := st.liveTimers ++ [st.nextTimer]
          nextTimer := st.nextTimer + 1
          messages := st.messages } q.chatId k hne
      refine ⟨?_, h2, ?_⟩
      · rw [h1]
        exact mapGet_mapSet_ne _ _ (fun hc => hne hc.symm)
      · intro hact hst
        refine h3 ?_ hst
        show mapGet (mapSet st.activeSessions q.chatId _) k = none
        rw [mapGet_mapSet_ne _ _ (fun hc => hne hc.symm)]
        exact hact

/-- The restore iteration for the session that triggers the synchronous
summary: afterwards the key is out of the live set, the rewritten store has
no record for it, and exactly one more message for the key has been sent. -/
theorem restoreOne_self_summary (env : CtfdEnv) (now : Int) (st : CtfdState)
    (p : PersistedSession) (tid : Int) (hfut : ¬ p.endTime ≤ now)
    (hlead : ¬ 0 < p.endTime - now - 2 * 60 * 1000) (htid : p.teamId = some tid) :
    mapGet (restoreOne env now st p).activeSessions p.chatId = none ∧
    (∀ r ∈ (restoreOne env now st p).store, r.chatId ≠ p.chatId) ∧
    ((restoreOne env now st p).messages.filter (fun m => m.1 == p.chatId)).length =
      (st.messages.filter (fun m => m.1 == p.chatId)).length + 1 := by
  rw [restoreOne_future_now env now st p hfut hlead]
  set sess1 : TrackingSession :=
    { restoredSession p with pollInterval := some st.nextTimer } with hsess1
  set st2 : CtfdState :=
    { activeSessions := mapSet st.activeSessions p.chatId sess1
      store := st.store
      liveTimers := st.liveTimers ++ [st.nextTimer]
      nextTimer := st.nextTimer + 1
      messages := st.messages } with hst2
  have hget : mapGet st2.activeSessions p.chatId = some sess1 :=
    mapGet_mapSet_self _ _ _
  have ht : sess1.teamId = some tid := htid
  rw [sendSummary_of_some env st2 p.chatId sess1 tid hget ht]
  set st3 : CtfdState :=
    { st2 with messages := st2.messages ++ [(p.chatId, summaryMessage env sess1 tid)] }
    with hst3
  have hget3 : mapGet st3.activeSessions p.chatId = some sess1 := hget
  rw [stopTracking_of_some hget3]
  refine ⟨?_, ?_, ?_⟩
  · show mapGet (mapDelete st3.activeSessions p.chatId) p.chatId = none
    rw [mapGet_mapDelete, if_pos rfl]
  · intro r hr
    simp only [saveActive, List.mem_map] at hr
    obtain ⟨e, he, rfl⟩ := hr
    have : e.1 ≠ p.chatId := by
      have := List.of_mem_filter he
      simpa using this
    exact this
  · show (List.filter (fun m => m.1 == p.chatId)
      (st.messages ++ [(p.chatId, summaryMessage env sess1 tid)])).length = _
    rw [List.filter_append]
    simp

theorem foldl_restoreOne_frame (env : CtfdEnv) (now : Int) (k : Int) :
    ∀ (l : List PersistedSession) (st : CtfdState), (∀ q ∈ l, q.chatId ≠ k) →
    mapGet st.activeSessions k = none →
    mapGet (l.foldl (restoreOne env now) st).activeSessions k = none ∧
    (l.foldl (restoreOne env now) st).messages.filter (fun m => m.1 == k) =
      st.messages.filter (fun m => m.1 == k) ∧
    ((∀ r ∈ st.store, r.chatId ≠ k) →
      ∀ r ∈ (l.foldl (restoreOne env now) st).store, r.chatId ≠ k) := by
  intro l
  induction l with
  | nil => exact fun st _ h1 => ⟨h1, rfl, fun h => h⟩
  | cons q l ih =>
    intro st hl h1
    simp only [List.foldl_cons]
    obtain ⟨f1, f2, f3⟩ := restoreOne_other_frame env now st q k (hl q (by simp))
    have h1' : mapGet (restoreOne env now st q).activeSessions k = none := by
      rw [f1]
      exact h1
    obtain ⟨g1, g2, g3⟩ := ih (restoreOne env now st q)
      (fun r hr => hl r (by simp [hr])) h1'
    exact ⟨g1, by rw [g2, f2], fun hs => g3 (f3 h1 hs)⟩

/-- Claim C3: running the restore pass at startup (empty live set, no
messages sent yet, the loaded store containing exactly one record for the
key, with a resolved team id) over a persisted session whose end instant lies
in the future by less than the two-minute lead time sends exactly one summary
message for that key synchronously, and afterwards neither the live session
set nor the durable store contains a session for that key. -/
theorem restore_synchronous_summary (env : CtfdEnv) (now : Int) (st : CtfdState)
    (pre post : List PersistedSession) (p : PersistedSession) (tid : Int)
    (hact : st.activeSessions = []) (hmsg : st.messages = [])
    (hstore : st.store = pre ++ p :: post)
    (hpre : ∀ q ∈ pre, q.chatId ≠ p.chatId) (hpost : ∀ q ∈ post, q.chatId ≠ p.chatId)
    (htid : p.teamId = some tid)
    (hfut : now < p.endTime) (hlead : p.endTime - now < 2 * 60 * 1000) :
    mapGet (restoreCtfdSessions env now st).activeSessions p.chatId = none ∧
    (∀ q ∈ (restoreCtfdSessions env now st).store, q.chatId ≠ p.chatId) ∧
    ((restoreCtfdSessions env now st).messages.filter
      (fun m => m.1 == p.chatId)).length = 1 := by
  have hfut' : ¬ p.endTime ≤ now := by omega
  have hlead' : ¬ 0 < p.endTime - now - 2 * 60 * 1000 := by omega
  have hres : restoreCtfdSessions env now st =
      post.foldl (restoreOne env now)
        (restoreOne env now (pre.foldl (restoreOne env now) st) p) := by
    unfold restoreCtfdSessions
    rw [hstore, List.foldl_append, List.foldl_cons]
  rw [hres]
  have h1 : mapGet st.activeSessions p.chatId = none := by
    rw [hact]
    rfl
  obtain ⟨a1, a2, _⟩ := foldl_restoreOne_frame env now p.chatId pre st hpre h1
  obtain ⟨b1, b2, b3⟩ := restoreOne_self_summary env now
    (pre.foldl (restoreOne env now) st) p tid hfut' hlead' htid
  have hcount : ((restoreOne env now (pre.foldl (restoreOne env now) st)
      p).messages.filter (fun m => m.1 == p.chatId)).length = 1 := by
    rw [b3, a2, hmsg]
    rfl
  obtain ⟨c1, c2, c3⟩ := foldl_restoreOne_frame env now p.chatId post
    (restoreOne env now (pre.foldl (restoreOne env now) st) p) hpost b1
  refine ⟨c1, c3 b2, ?_⟩
  rw [c2, hcount]

/-- Witness for C3 on a one-record store whose session ends one minute after
`now = 0`. -/
theorem restore_synchronous_summary_witness :
    mapGet (restoreCtfdSessions env1 0
      ⟨[], [⟨2, "u", "beta", "t", some 4, [5], some [5], 60000, 7⟩], [], 0,
        []⟩).activeSessions 2 = none ∧
    ((restoreCtfdSessions env1 0
      ⟨[], [⟨2, "u", "beta", "t", some 4, [5], some [5], 60000, 7⟩], [], 0,
        []⟩).messages.filter (fun m => m.1 == (2 : Int))).length = 1 := by
  obtain ⟨w1, _, w3⟩ := restore_synchronous_summary env1 0
    ⟨[], [⟨2, "u", "beta", "t", some 4, [5], some [5], 60000, 7⟩], [], 0, []⟩
    [] [] ⟨2, "u", "beta", "t", some 4, [5], some [5], 60000, 7⟩ 4
    rfl rfl rfl (by simp) (by simp) rfl (by decide) (by decide)
  exact ⟨w1, w3⟩

end AhmengBot
